import Mathlib

/-!
Shallow embedding of the DTRedis plugin core: the connection lifecycle manager
`UDTRedisObject` (DTRedisObject.cpp / DTRedisObject.h), its error-mapping
macros (DTRedisHead.h), and the background subscriber worker
`CDTSubscriberRunnable` (DTSubscriberRunnable.cpp).

Modelling conventions:
- The transport library calls (`Redis::NewRedis`, `Redis::DeleteRedis`,
  `set`/`get`/`del`/`publish`, `subscriber()`/`subscribe`/`consume`) are
  recorded as events in a trace, so that ordering and presence of transport
  calls can be stated.  Connection handles are identified by natural numbers.
- Exceptions thrown by the transport are supplied by oracles (`Option String`
  carrying the diagnostic text, or `Bool`/`Nat → Bool` where the text does
  not matter); the embedded functions mirror the source's try/catch structure
  against those oracles.
- C++ member state becomes explicit state passing on `ObjS` (the fields of
  `UDTRedisObject`) and `RunnableS` (the fields of `CDTSubscriberRunnable`).
-/

/-- `EBP_Result` from DTRedisObject.h. -/
inductive EBP_Result
  | Success
  | Failure
deriving DecidableEq, Repr

/-- Fields of `CDTSubscriberRunnable` (DTSubscriberRunnable.h/.cpp):
the stop flag, the appended channel-key array, and whether `m_pSubscriber`
currently points at a live subscription object. -/
structure RunnableS where
  m_bStopping : Bool
  m_ArraySubKey : List String
  m_pSubscriber : Bool
deriving DecidableEq, Repr

/-- Fields of `UDTRedisObject` (DTRedisObject.h).  `m_pRedisObject` is the
transport connection handle (by id); `m_pSubscriberThread` records whether the
`FRunnableThread` exists; `m_SubscriberCallBack` is the bound delegate
(by id, `none` = unbound). -/
structure ObjS where
  m_pRedisObject : Option Nat
  m_bSubscriber : Bool
  m_pSubscriberThread : Bool
  m_pSubscriberRunnable : Option RunnableS
  m_SubscriberCallBack : Option Nat
deriving DecidableEq, Repr

/-- A fresh `UDTRedisObject` as produced by `NewObject<UDTRedisObject>()`:
all members at their in-class initializers. -/
def NewObjectRedis : ObjS :=
  { m_pRedisObject := none
    m_bSubscriber := false
    m_pSubscriberThread := false
    m_pSubscriberRunnable := none
    m_SubscriberCallBack := none }

/-- Transport / teardown events, in the order the source performs them. -/
inductive TEvent
  | killThread                     -- FRunnableThread::Kill(true): stop the runnable and join
  | deleteRunnable                 -- delete m_pSubscriberRunnable
  | deleteThread                   -- delete m_pSubscriberThread
  | releaseRedis (id : Nat)        -- Redis::DeleteRedis on a live handle
  | newRedis (id : Nat)            -- Redis::NewRedis returning a fresh handle
  | tSet (key value : String) (ttl : Int)   -- connection->set(key, value, ms(ttl))
  | tGet (key : String)            -- connection->get(key)
  | tDel (key : String)            -- connection->del(key)
  | tPub (channel message : String)  -- connection->publish(channel, message)
deriving DecidableEq, Repr

/-- Modelled from the spec: `Redis::DeleteRedis` lives in the transport
library (`DTRedisLib`), whose source is not under src/.  Per the spec
("release the transport connection(s)"; "Returns false only if the underlying
close reports failure — teardown still proceeds best-effort"), it releases a
non-null handle best-effort and reports failure (throws) only when the
underlying close fails; on a null handle it is a no-op that cannot fail.
Returns (new handle value, succeeded?, transport events). -/
def DeleteRedis (h : Option Nat) (closeFails : Bool) : Option Nat × Bool × List TEvent :=
  match h with
  | none => (none, true, [])
  | some id => (none, !closeFails, [TEvent.releaseRedis id])

/-- `UDTRedisObject::Disconnect` (DTRedisObject.cpp).  Mirrors the source
order inside the `try` block:
`SAFE_POINTER_FUNC(m_pSubscriberThread, Kill(true))` (stop + join the worker),
`SAFE_POINTER_DELETE(m_pSubscriberRunnable)`, `SAFE_POINTER_DELETE(m_pSubscriberThread)`,
`Redis::DeleteRedis(m_pRedisObject)`, `m_bSubscriber = false`, `return true`;
`catch (...) { return false; }` — so a throwing close skips the
`m_bSubscriber = false` statement.  `FRunnableThread::Kill(true)` calls
`Stop()` on the runnable (setting its stop flag and closing the subscription)
and waits for the thread to exit. -/
def Disconnect (s : ObjS) (closeFails : Bool) : ObjS × Bool × List TEvent :=
  let stopR : RunnableS → RunnableS := fun r => { r with m_bStopping := true, m_pSubscriber := false }
  let (s1, ev1) :=
    if s.m_pSubscriberThread then
      ({ s with m_pSubscriberRunnable := s.m_pSubscriberRunnable.map stopR }, [TEvent.killThread])
    else (s, ([] : List TEvent))
  let (s2, ev2) :=
    if s1.m_pSubscriberRunnable.isSome then
      ({ s1 with m_pSubscriberRunnable := none }, [TEvent.deleteRunnable])
    else (s1, ([] : List TEvent))
  let (s3, ev3) :=
    if s2.m_pSubscriberThread then
      ({ s2 with m_pSubscriberThread := false }, [TEvent.deleteThread])
    else (s2, ([] : List TEvent))
  let (h, ok, ev4) := DeleteRedis s3.m_pRedisObject closeFails
  if ok then
    ({ s3 with m_pRedisObject := h, m_bSubscriber := false }, true,
      ev1 ++ ev2 ++ ev3 ++ ev4)
  else
    ({ s3 with m_pRedisObject := h }, false, ev1 ++ ev2 ++ ev3 ++ ev4)

/-- `UDTRedisObject::ClearConnection`: if the singleton exists, run its
`Disconnect`. -/
def ClearConnection (g : Option ObjS) (closeFails : Bool) : Option ObjS :=
  match g with
  | none => none
  | some s => some (Disconnect s closeFails).1

/-- No `killThread` event occurs after any `releaseRedis` event: the worker
thread is stopped and joined strictly before the connection handle is
released. -/
def noKillAfterRelease : List TEvent → Bool
  | [] => true
  | TEvent.releaseRedis _ :: rest =>
      rest.all (fun e => !(e == TEvent.killThread)) && noKillAfterRelease rest
  | _ :: rest => noKillAfterRelease rest

/-- A fully-running state: live handle 5, subscribed, worker thread and
runnable present, callback bound.  Used as a concrete test state. -/
def runningObj : ObjS :=
  { m_pRedisObject := some 5
    m_bSubscriber := true
    m_pSubscriberThread := true
    m_pSubscriberRunnable := some ⟨false, ["a"], true⟩
    m_SubscriberCallBack := some 1 }

example : (Disconnect NewObjectRedis false) = (NewObjectRedis, true, []) := by decide

example :
    (Disconnect runningObj false).2.2
      = [TEvent.killThread, TEvent.deleteRunnable, TEvent.deleteThread, TEvent.releaseRedis 5] := by
  decide

/-- `ConnectionOptions` as filled in by `UDTRedisObject::Connect`. -/
structure ConnectionOptions where
  host : String
  port : Int
  user : String
  password : String
  db : Int
deriving DecidableEq, Repr

/-- `ConnectionPoolOptions` as filled in by `UDTRedisObject::Connect`. -/
structure ConnectionPoolOptions where
  size : Nat
  wait_timeout_ms : Nat
deriving DecidableEq, Repr

/-- The pool options the source hard-codes: `poolOptions.size = 3;
poolOptions.wait_timeout = std::chrono::milliseconds(100);`. -/
def connectPoolOptions : ConnectionPoolOptions := ⟨3, 100⟩

/-- Modelled from the spec: `Redis::NewRedis` lives in the transport library
(`DTRedisLib`), whose source is not under src/.  Per the spec, it builds a
small bounded connection pool from the options and returns a live connection
handle, or throws with diagnostic text (auth failure, unreachable host,
timeout).  The oracle `err` supplies the diagnostic when it throws; `nextId`
names the fresh handle on success. -/
def NewRedis (_opts : ConnectionOptions) (_pool : ConnectionPoolOptions) (nextId : Nat)
    (err : Option String) : Except String (Nat × Nat × List TEvent) :=
  match err with
  | some msg => Except.error msg
  | none => Except.ok (nextId, nextId + 1, [TEvent.newRedis nextId])

/-- `UDTRedisObject::Connect` (DTRedisObject.cpp): first `Disconnect()` (clear
the previous connection), then build the options, then
`m_pRedisObject = Redis::NewRedis(connectionOptions, poolOptions)` inside
`try`; on success `ErrorMsg = "Success"`, return true; `catch (const
std::exception&)` sets `ErrorMsg` from `err.what()` and `catch (...)` sets
`"unknown error"` — the oracle `connectErr` carries whichever diagnostic the
throw produced.  Returns (object state, next fresh id, returned bool,
ErrorMsg, transport events). -/
def Connect (s : ObjS) (nextId : Nat) (Host : String) (Port : Int) (User : String)
    (Password : String) (DBIndex : Int) (closeFails : Bool) (connectErr : Option String) :
    ObjS × Nat × Bool × String × List TEvent :=
  let (s1, _, ev1) := Disconnect s closeFails
  let connectionOptions : ConnectionOptions := ⟨Host, Port, User, Password, DBIndex⟩
  match NewRedis connectionOptions connectPoolOptions nextId connectErr with
  | Except.error msg => (s1, nextId, false, msg, ev1)
  | Except.ok (id, next', ev2) =>
      ({ s1 with m_pRedisObject := some id }, next', true, "Success", ev1 ++ ev2)

/-- Process-wide state: the singleton `g_UDTRedisObject`, the supply of fresh
handle ids, and the transport server's key-value store. -/
structure RedisW where
  gObj : Option ObjS
  nextId : Nat
  store : List (String × String)
deriving DecidableEq, Repr

/-- The initial process state: `g_UDTRedisObject = nullptr`. -/
def initialW : RedisW := { gObj := none, nextId := 0, store := [] }

/-- Inputs of one `CreateRedis` call, with its two transport oracles. -/
structure ConnCall where
  Host : String
  Port : Int
  User : String
  Password : String
  DBIndex : Int
  closeFails : Bool
  connectErr : Option String
deriving DecidableEq, Repr

/-- `UDTRedisObject::CreateRedis` (DTRedisObject.cpp): if the singleton is
null, create and root a fresh object; then `Connect`; `Result` is `Success`
iff `Connect` returned true. -/
def CreateRedis (w : RedisW) (c : ConnCall) : RedisW × EBP_Result × String × List TEvent :=
  let g := match w.gObj with
    | none => NewObjectRedis
    | some s => s
  let (s', next', ok, msg, tr) :=
    Connect g w.nextId c.Host c.Port c.User c.Password c.DBIndex c.closeFails c.connectErr
  ({ w with gObj := some s', nextId := next' },
    (if ok then EBP_Result.Success else EBP_Result.Failure), msg, tr)

/-- Transport-side `set`: replace any existing binding of the key. -/
def storeSet (st : List (String × String)) (k v : String) : List (String × String) :=
  (k, v) :: st.filter (fun p => !(p.1 == k))

/-- Transport-side `del`: drop the binding of the key. -/
def storeDel (st : List (String × String)) (k : String) : List (String × String) :=
  st.filter (fun p => !(p.1 == k))

/-- `UDTRedisObject::RedisSet` (DTRedisObject.cpp).  `REDIS_TRY_BEGIN`
(DTRedisHead.h) throws `"not created"` when the singleton or its handle is
null — caught by `REDIS_TRY_END`'s handlers as `Failure` — before any
transport call.  Otherwise the ttl is clamped
(`if (EffectiveTime < 0) { EffectiveTime = 0; }`) and
`set(key, value, std::chrono::milliseconds(EffectiveTime))` is issued; a
transport throw (oracle `opErr`, carrying `err.what()`) becomes `Failure`
with that text, else `Success`/`"Success"`.  Returns (new world, Result,
ErrorMsg, transport events). -/
def RedisSet (w : RedisW) (Key Value : String) (EffectiveTime : Int) (opErr : Option String) :
    RedisW × EBP_Result × String × List TEvent :=
  match w.gObj with
  | none => (w, EBP_Result.Failure, "not created", [])
  | some s =>
    match s.m_pRedisObject with
    | none => (w, EBP_Result.Failure, "not created", [])
    | some _ =>
      let t : Int := if EffectiveTime < 0 then 0 else EffectiveTime
      match opErr with
      | some msg => (w, EBP_Result.Failure, msg, [TEvent.tSet Key Value t])
      | none =>
          ({ w with store := storeSet w.store Key Value }, EBP_Result.Success, "Success",
            [TEvent.tSet Key Value t])

/-- `UDTRedisObject::RedisGet` (DTRedisObject.cpp).  Unlike the other
operations it does not use the `REDIS_TRY` macros and has no
`Result`/`ErrorMsg` out-parameters: when the singleton or its handle is null
it returns immediately, leaving the caller's `Value` untouched.  Otherwise it
calls `get(key)`; a missing key yields an empty `OptionalString`, whose
`.value()` throws `std::bad_optional_access`, and the `catch (...)` sets
`Value = TEXT("")` — as it also does for any transport throw (oracle
`opErr`).  Returns (resulting Value, transport events). -/
def RedisGet (w : RedisW) (Key : String) (Value : String) (opErr : Bool) :
    String × List TEvent :=
  match w.gObj with
  | none => (Value, [])
  | some s =>
    match s.m_pRedisObject with
    | none => (Value, [])
    | some _ =>
      if opErr then ("", [TEvent.tGet Key])
      else
        match w.store.lookup Key with
        | some v => (v, [TEvent.tGet Key])
        | none => ("", [TEvent.tGet Key])

/-- `UDTRedisObject::RedisDelete` (DTRedisObject.cpp): `REDIS_TRY_BEGIN`
guard, then `del(key)`. -/
def RedisDelete (w : RedisW) (Key : String) (opErr : Option String) :
    RedisW × EBP_Result × String × List TEvent :=
  match w.gObj with
  | none => (w, EBP_Result.Failure, "not created", [])
  | some s =>
    match s.m_pRedisObject with
    | none => (w, EBP_Result.Failure, "not created", [])
    | some _ =>
      match opErr with
      | some msg => (w, EBP_Result.Failure, msg, [TEvent.tDel Key])
      | none =>
          ({ w with store := storeDel w.store Key }, EBP_Result.Success, "Success",
            [TEvent.tDel Key])

/-- `UDTRedisObject::RedisPublish` (DTRedisObject.cpp): `REDIS_TRY_BEGIN`
guard, then `publish(channel, message)` — fire and forget, the store is
untouched. -/
def RedisPublish (w : RedisW) (ChannelKey Message : String) (opErr : Option String) :
    RedisW × EBP_Result × String × List TEvent :=
  match w.gObj with
  | none => (w, EBP_Result.Failure, "not created", [])
  | some s =>
    match s.m_pRedisObject with
    | none => (w, EBP_Result.Failure, "not created", [])
    | some _ =>
      match opErr with
      | some msg => (w, EBP_Result.Failure, msg, [TEvent.tPub ChannelKey Message])
      | none => (w, EBP_Result.Success, "Success", [TEvent.tPub ChannelKey Message])

example : (RedisSet initialW "k" "v" 7 none).2.1 = EBP_Result.Failure := by decide
example : (RedisGet initialW "k" "untouched" false).1 = "untouched" := by decide

/-- The `CDTSubscriberRunnable` constructor (DTSubscriberRunnable.cpp):
`m_bStopping = false; m_pSubscriber = nullptr;
m_ArraySubKey.Append(ArraySubKey);` — `TArray::Append` copies the elements
as given, duplicates included. -/
def mkRunnable (ArraySubKey : List String) : RunnableS :=
  { m_bStopping := false
    m_ArraySubKey := [] ++ ArraySubKey
    m_pSubscriber := false }

/-- `UDTRedisObject::ExecuteSubscriber` (DTRedisObject.cpp): run only once —
return early if `m_bSubscriber` is already set or the handle is null;
otherwise set `m_bSubscriber = true`, construct the runnable, and create the
worker thread. -/
def ExecuteSubscriber (s : ObjS) (ArraySubKey : List String) : ObjS :=
  if s.m_bSubscriber || s.m_pRedisObject.isNone then s
  else
    { s with m_bSubscriber := true
             m_pSubscriberRunnable := some (mkRunnable ArraySubKey)
             m_pSubscriberThread := true }

/-- `UDTRedisObject::RedisSubscriber` (DTRedisObject.cpp): `REDIS_TRY_BEGIN`
guard (`"not created"` failure when the singleton or handle is null); then if
`HasSubscriber()` the call fails via
`REDIS_RETURN(EBP_Result::Failure, TEXT("Subscription can only be performed once"))`
with nothing mutated; otherwise the callback delegate is bound and
`ExecuteSubscriber` starts the worker, ending in `REDIS_TRY_END` success. -/
def RedisSubscriber (w : RedisW) (ChannelKey : List String) (CallBack : Nat) :
    RedisW × EBP_Result × String :=
  match w.gObj with
  | none => (w, EBP_Result.Failure, "not created")
  | some s =>
    match s.m_pRedisObject with
    | none => (w, EBP_Result.Failure, "not created")
    | some _ =>
      if s.m_bSubscriber then
        (w, EBP_Result.Failure, "Subscription can only be performed once")
      else
        let s1 := { s with m_SubscriberCallBack := some CallBack }
        let s2 := ExecuteSubscriber s1 ChannelKey
        ({ w with gObj := some s2 }, EBP_Result.Success, "Success")

example :
    (RedisSubscriber { initialW with gObj := some runningObj } ["b"] 9).2.2
      = "Subscription can only be performed once" := by decide

/-- Execution contexts: the background worker thread and the host's game
thread. -/
inductive Ctx
  | worker
  | game
deriving DecidableEq, Repr

/-- A task posted to the game thread by `AsyncTask(ENamedThreads::GameThread,
…)`: the lambda captures the converted channel and message strings. -/
structure GameTask where
  channel : String
  message : String
deriving DecidableEq, Repr

/-- One invocation of the host's bound delegate, tagged with the execution
context it runs on. -/
structure CbInvocation where
  ctx : Ctx
  channel : String
  message : String
deriving DecidableEq, Repr

/-- `UDTRedisObject::CallBackSubscriber` (DTRedisObject.cpp), executed on the
worker thread: converts the strings and posts one `AsyncTask` to
`ENamedThreads::GameThread`, then returns.  Its body contains no call to
`m_SubscriberCallBack.Execute` — that call sits only inside the posted
lambda — so the list of delegate invocations it performs synchronously (the
second component) is empty.  Returns (game-thread queue after the post,
invocations performed by this call itself). -/
def CallBackSubscriber (queue : List GameTask) (Channel Message : String) :
    List GameTask × List CbInvocation :=
  (queue ++ [{ channel := Channel, message := Message }], [])

/-- The `on_message` handler registered by `CDTSubscriberRunnable::Run`
(DTSubscriberRunnable.cpp): it forwards `(channel, msg)` to
`m_pDTRedisObject->CallBackSubscriber`. -/
def onMessageHandler (queue : List GameTask) (channel msg : String) :
    List GameTask × List CbInvocation :=
  CallBackSubscriber queue channel msg

/-- The lambda posted by `CallBackSubscriber`, as later run by the game
thread: `if (m_SubscriberCallBack.IsBound()) { m_SubscriberCallBack.Execute(…) }`. -/
def runGameTask (callbackBound : Option Nat) (t : GameTask) : List CbInvocation :=
  match callbackBound with
  | some _ => [{ ctx := Ctx.game, channel := t.channel, message := t.message }]
  | none => []

/-- The game thread draining its task queue in FIFO order. -/
def drainGameThread (callbackBound : Option Nat) (queue : List GameTask) : List CbInvocation :=
  (queue.map (runGameTask callbackBound)).flatten

example : (onMessageHandler [] "orders" "hello").2 = [] := by decide
example :
    drainGameThread (some 1) [⟨"orders", "hello"⟩]
      = [{ ctx := Ctx.game, channel := "orders", message := "hello" }] := by decide

/-- Actions the worker loop performs, in source order
(`CDTSubscriberRunnable::Run`, DTSubscriberRunnable.cpp). -/
inductive WAction
  | openSub                  -- Subscriber Sub = m_pRedis->subscriber(); Sub.on_message(…)
  | subscribeKey (k : String)  -- Sub.subscribe(key) for one element of m_ArraySubKey
  | setSub                   -- m_pSubscriber = &Sub
  | consumeMsg               -- one Sub.consume() returning normally
  | caught                   -- catch (...) { m_pSubscriber = nullptr; }
deriving DecidableEq, Repr

/-- How `Run` returned.  `threw` would mean an exception escaped `Run`; the
definition of `outerLoop` never produces it because the source wraps the whole
body in `catch (...)`. -/
inductive RunRes
  | exited (p : Nat)          -- while (!m_bStopping) saw the flag at poll p
  | fuelOut                   -- model fuel exhausted (the loop was still running)
  | threw                     -- an exception escaped Run
deriving DecidableEq, Repr

/-- The `for (FString Key : m_ArraySubKey) Sub.subscribe(…)` loop.  Each
`subscribe` may throw (oracle `exn` indexed by transport-call counter `o`).
Returns (did it throw, next call counter, actions performed). -/
def subscribePhase (exn : Nat → Bool) : List String → Nat → Bool × Nat × List WAction
  | [], o => (false, o, [])
  | k :: ks, o =>
    if exn o then (true, o + 1, [])
    else
      let r := subscribePhase exn ks (o + 1)
      (r.1, r.2.1, WAction.subscribeKey k :: r.2.2)

/-- The inner `while (!m_bStopping) { Sub.consume(); }` loop.  `stop` is the
flag oracle indexed by poll counter `p`; `exn` the transport-throw oracle
indexed by call counter `o`.  Returns `none` when fuel runs out, otherwise
`some (didThrow, next poll counter, next call counter, actions)`. -/
def consumeLoop (stop exn : Nat → Bool) : Nat → Nat → Nat →
    Option (Bool × Nat × Nat × List WAction)
  | 0, _, _ => none
  | Nat.succ fuel, p, o =>
    if stop p then some (false, p + 1, o, [])
    else if exn o then some (true, p + 1, o + 1, [])
    else
      match consumeLoop stop exn fuel (p + 1) (o + 1) with
      | none => none
      | some (th, p', o', tr) => some (th, p', o', WAction.consumeMsg :: tr)

/-- `CDTSubscriberRunnable::Run` (DTSubscriberRunnable.cpp): the outer
`while (!m_bStopping)` loop.  Each iteration, inside `try`:
`m_pRedis->subscriber()` (may throw), `on_message` registration, one
`subscribe` per stored key (each may throw), `m_pSubscriber = &Sub`, then the
inner consume loop; `catch (...) { m_pSubscriber = nullptr; }` swallows any
throw and control returns to the outer check.  Fuel bounds the unrolling so
the model is executable; the oracles decide the flag reads and throws.
Returns (how Run ended, the action trace). -/
def outerLoop (stop exn : Nat → Bool) (keys : List String) : Nat → Nat → Nat →
    RunRes × List WAction
  | 0, _, _ => (RunRes.fuelOut, [])
  | Nat.succ fuel, p, o =>
    if stop p then (RunRes.exited p, [])
    else if exn o then
      let r := outerLoop stop exn keys fuel (p + 1) (o + 1)
      (r.1, WAction.caught :: r.2)
    else
      let sp := subscribePhase exn keys (o + 1)
      if sp.1 then
        let r := outerLoop stop exn keys fuel (p + 1) sp.2.1
        (r.1, (WAction.openSub :: sp.2.2 ++ [WAction.caught]) ++ r.2)
      else
        match consumeLoop stop exn fuel (p + 1) sp.2.1 with
        | none => (RunRes.fuelOut, WAction.openSub :: sp.2.2 ++ [WAction.setSub])
        | some (th, p', o', tr2) =>
          if th then
            let r := outerLoop stop exn keys fuel p' o'
            (r.1, (WAction.openSub :: sp.2.2 ++ [WAction.setSub] ++ tr2 ++ [WAction.caught]) ++ r.2)
          else
            let r := outerLoop stop exn keys fuel p' o'
            (r.1, (WAction.openSub :: sp.2.2 ++ [WAction.setSub] ++ tr2) ++ r.2)

/-- The value of `m_pSubscriber` after a sequence of worker actions:
`setSub` sets it, the catch handler clears it. -/
def subPtrAfter (b : Bool) : List WAction → Bool
  | [] => b
  | WAction.setSub :: rest => subPtrAfter true rest
  | WAction.caught :: rest => subPtrAfter false rest
  | _ :: rest => subPtrAfter b rest

/-- An element equal to `caught` may only be followed (immediately) by the
next iteration's first action — a fresh `openSub` attempt or another
`caught` — never by any waiting/backoff action. -/
def retryR : WAction → WAction → Prop :=
  fun a b => a = WAction.caught → (b = WAction.openSub ∨ b = WAction.caught)

example :
    outerLoop (fun _ => false) (fun _ => true) ["a"] 3 0 0
      = (RunRes.fuelOut, [WAction.caught, WAction.caught, WAction.caught]) := by decide

example :
    (outerLoop (fun p => p ≥ 2) (fun _ => false) ["a"] 5 0 0).1 = RunRes.exited 3 := by
  decide

/-- `CDTSubscriberRunnable::Stop` (DTSubscriberRunnable.cpp):
`m_bStopping = true;` then, if the subscription pointer is non-null, close it
and null it.  It never touches `UDTRedisObject::m_bSubscriber`. -/
def RunnableStop (r : RunnableS) : RunnableS :=
  let r1 := { r with m_bStopping := true }
  if r1.m_pSubscriber then { r1 with m_pSubscriber := false } else r1

/-- The host-facing operations of the subsystem, each carrying its inputs and
transport oracles. -/
inductive HostOp
  | createRedis (c : ConnCall)
  | disconnect (closeFails : Bool)
  | clearConnection (closeFails : Bool)
  | redisSet (k v : String) (ttl : Int) (opErr : Option String)
  | redisGet (k vIn : String) (opErr : Bool)
  | redisDelete (k : String) (opErr : Option String)
  | redisPublish (c m : String) (opErr : Option String)
  | redisSubscriber (chans : List String) (cb : Nat)
  | workerStop
deriving DecidableEq, Repr

/-- One host-facing operation applied to the process state (outputs other
than the state projected away).  `workerStop` is `CDTSubscriberRunnable::Stop`
reaching the runnable, as `FRunnableThread::Kill` does during teardown. -/
def hostStep (w : RedisW) (op : HostOp) : RedisW :=
  match op with
  | HostOp.createRedis c => (CreateRedis w c).1
  | HostOp.disconnect cf =>
      match w.gObj with
      | none => w
      | some s => { w with gObj := some (Disconnect s cf).1 }
  | HostOp.clearConnection cf => { w with gObj := ClearConnection w.gObj cf }
  | HostOp.redisSet k v ttl e => (RedisSet w k v ttl e).1
  | HostOp.redisGet _ _ _ => w
  | HostOp.redisDelete k e => (RedisDelete w k e).1
  | HostOp.redisPublish c m e => (RedisPublish w c m e).1
  | HostOp.redisSubscriber chans cb => (RedisSubscriber w chans cb).1
  | HostOp.workerStop =>
      match w.gObj with
      | none => w
      | some s =>
          { w with gObj := some { s with m_pSubscriberRunnable := s.m_pSubscriberRunnable.map RunnableStop } }

/-- The operations whose execution includes the `Disconnect` teardown
sequence: `Disconnect` itself, `ClearConnection` (which calls it), and
`CreateRedis`/`Connect` (whose first step is `Disconnect()`). -/
def invokesDisconnect : HostOp → Bool
  | HostOp.createRedis _ => true
  | HostOp.disconnect _ => true
  | HostOp.clearConnection _ => true
  | _ => false

/-- The set of live connection handles implied by a transport-event trace:
`newRedis` creates one, `releaseRedis` destroys it. -/
def applyEvent (live : List Nat) : TEvent → List Nat
  | TEvent.newRedis id => live ++ [id]
  | TEvent.releaseRedis id => live.filter (fun x => !(x == id))
  | _ => live

/-- After every single event of the trace, at most one handle is live
(checked cumulatively, starting from `live`). -/
def prefixesOk (live : List Nat) : List TEvent → Bool
  | [] => true
  | e :: rest =>
      let live' := applyEvent live e
      decide (live'.length ≤ 1) && prefixesOk live' rest

/-- Within one call's trace, no teardown event (`releaseRedis`, `killThread`)
occurs at or after a `newRedis`: the old handle is torn down before the new
connection is established. -/
def teardownBeforeNew : List TEvent → Bool
  | [] => true
  | TEvent.newRedis _ :: rest =>
      rest.all (fun e =>
        match e with
        | TEvent.releaseRedis _ => false
        | TEvent.killThread => false
        | _ => true) && teardownBeforeNew rest
  | _ :: rest => teardownBeforeNew rest

/-- The live-handle list implied by an object state: its handle field, if
any. -/
def objLive (g : Option ObjS) : List Nat :=
  match g with
  | none => []
  | some s =>
    match s.m_pRedisObject with
    | none => []
    | some id => [id]

/-- A sequence of `CreateRedis` calls; returns the final state and each
call's transport-event trace, in order. -/
def runCreates (w : RedisW) : List ConnCall → RedisW × List (List TEvent)
  | [] => (w, [])
  | c :: cs =>
    let r := CreateRedis w c
    let rest := runCreates r.1 cs
    (rest.1, r.2.2.2 :: rest.2)

example :
    (runCreates initialW [⟨"h", 6379, "default", "", 0, false, none⟩,
        ⟨"h", 6379, "default", "", 0, false, none⟩]).2
      = [[TEvent.newRedis 0], [TEvent.releaseRedis 0, TEvent.newRedis 1]] := by decide

/-- Uniform view of the inputs of one command-executor operation. -/
inductive OpCall
  | set (k v : String) (ttl : Int)
  | get (k vIn : String)
  | del (k : String)
  | pub (c m : String)
deriving DecidableEq, Repr

/-- The diagnostic an operation surfaces to its caller: its `ErrorMsg` value
when it reports `Result = Failure`, and `none` when it reports success.
`RedisGet`'s source signature is `static void RedisGet(const FString& Key,
FString& Value)` — it has no `Result`/`ErrorMsg` out-parameters, so it can
surface no diagnostic, ever.  (Transport-throw oracles are `none`/`false`
here: these calls never reach the transport when no handle exists.) -/
def opError (w : RedisW) (c : OpCall) : Option String :=
  match c with
  | OpCall.set k v ttl =>
      match RedisSet w k v ttl none with
      | (_, EBP_Result.Failure, msg, _) => some msg
      | _ => none
  | OpCall.get _ _ => none
  | OpCall.del k =>
      match RedisDelete w k none with
      | (_, EBP_Result.Failure, msg, _) => some msg
      | _ => none
  | OpCall.pub c m =>
      match RedisPublish w c m none with
      | (_, EBP_Result.Failure, msg, _) => some msg
      | _ => none

/-- The transport calls an operation performs. -/
def opTrace (w : RedisW) (c : OpCall) : List TEvent :=
  match c with
  | OpCall.set k v ttl => (RedisSet w k v ttl none).2.2.2
  | OpCall.get k vIn => (RedisGet w k vIn false).2
  | OpCall.del k => (RedisDelete w k none).2.2.2
  | OpCall.pub c m => (RedisPublish w c m none).2.2.2

/-- No connection handle exists: the singleton is null, or its
`m_pRedisObject` is. -/
def noHandle (w : RedisW) : Bool :=
  match w.gObj with
  | none => true
  | some s => s.m_pRedisObject.isNone

/-- A process state whose singleton is in the fully-running state. -/
def wRunning : RedisW := { gObj := some runningObj, nextId := 6, store := [] }

/-- C1: in `Disconnect`, the worker thread is signalled to stop and joined
(`Kill(true)`, the first statement) before the transport handle is released
(`Redis::DeleteRedis`); when nothing is connected it is a no-op returning
true; and it returns false exactly when a handle existed and the underlying
close reported failure — teardown of the worker still having proceeded
first. -/
theorem disconnect_stops_worker_before_release (s : ObjS) (cf : Bool) :
    noKillAfterRelease (Disconnect s cf).2.2 = true ∧
    (s.m_pSubscriberThread = true → (Disconnect s cf).2.2.head? = some TEvent.killThread) ∧
    (s.m_pRedisObject = none → s.m_pSubscriberThread = false →
      s.m_pSubscriberRunnable = none → s.m_bSubscriber = false →
      Disconnect s cf = (s, true, [])) ∧
    ((Disconnect s cf).2.1 = false ↔ (s.m_pRedisObject.isSome = true ∧ cf = true)) := by
  obtain ⟨r, b, t, rn, cbk⟩ := s
  cases r <;> cases t <;> cases rn <;> cases cf <;>
    simp [Disconnect, DeleteRedis, noKillAfterRelease]

/-- Witness for C1: the no-op case on a fresh object, and the
stop-worker-first case on a fully-running object. -/
theorem disconnect_stops_worker_before_release_witness :
    Disconnect NewObjectRedis false = (NewObjectRedis, true, []) ∧
    (Disconnect runningObj true).2.2.head? = some TEvent.killThread := by
  constructor
  · exact (disconnect_stops_worker_before_release NewObjectRedis false).2.2.1 rfl rfl rfl rfl
  · exact (disconnect_stops_worker_before_release runningObj true).2.1 rfl

/-- C2: while a subscriber is running (handle live, `m_bSubscriber` set), a
second `RedisSubscriber` returns `Failure` with the already-subscribed
diagnostic and changes nothing — in particular the bound callback and the
running subscription are untouched; and `RedisSubscriber` reports `Success`
only from a state with a live handle and no subscriber started. -/
theorem redisSubscriber_second_start_fails (w : RedisW) (s : ObjS) (id : Nat)
    (chans : List String) (cb : Nat)
    (hg : w.gObj = some s) (hr : s.m_pRedisObject = some id) (hs : s.m_bSubscriber = true) :
    RedisSubscriber w chans cb
        = (w, EBP_Result.Failure, "Subscription can only be performed once") ∧
    (∀ w' chans' cb', (RedisSubscriber w' chans' cb').2.1 = EBP_Result.Success →
      ∃ s', w'.gObj = some s' ∧ s'.m_pRedisObject.isSome = true ∧ s'.m_bSubscriber = false) := by
  constructor
  · simp [RedisSubscriber, hg, hr, hs]
  · intro w' chans' cb' hok
    match hg' : w'.gObj with
    | none => simp [RedisSubscriber, hg'] at hok
    | some s' =>
      match hr' : s'.m_pRedisObject with
      | none => simp [RedisSubscriber, hg', hr'] at hok
      | some id' =>
        match hs' : s'.m_bSubscriber with
        | true => simp [RedisSubscriber, hg', hr', hs'] at hok
        | false => exact ⟨s', rfl, by simp [hr'], hs'⟩

/-- Witness for C2: a second start on the fully-running state fails with the
diagnostic and leaves the state unchanged. -/
theorem redisSubscriber_second_start_fails_witness :
    RedisSubscriber wRunning ["b"] 9
      = (wRunning, EBP_Result.Failure, "Subscription can only be performed once") :=
  (redisSubscriber_second_start_fails wRunning runningObj 5 ["b"] 9 rfl rfl rfl).1

/-- C6 counterexample: with no connection handle, `RedisGet` performs no
transport call but surfaces no `NotConnected` diagnostic at all — its source
signature has no error output — refuting the claim that every one of the four
operations fails with a `NotConnected` error. -/
theorem redisGet_no_error_when_disconnected :
    noHandle initialW = true ∧
    opError initialW (OpCall.get "k" "") = none ∧
    ¬ opError initialW (OpCall.get "k" "") = some "not created" ∧
    opTrace initialW (OpCall.get "k" "") = [] := by decide

/-- C6 (amended): with no connection handle, `RedisSet`, `RedisDelete` and
`RedisPublish` fail fast with the NotConnected diagnostic (`"not created"`,
thrown by `REDIS_TRY_BEGIN` and mapped to `Failure`) and perform no transport
call; `RedisGet` also performs no transport call but returns silently with
the caller's value untouched, surfacing no error. -/
theorem operations_fail_fast_when_disconnected (w : RedisW) (h : noHandle w = true)
    (k v c m vIn : String) (ttl : Int) :
    opError w (OpCall.set k v ttl) = some "not created" ∧
    opTrace w (OpCall.set k v ttl) = [] ∧
    opError w (OpCall.del k) = some "not created" ∧
    opTrace w (OpCall.del k) = [] ∧
    opError w (OpCall.pub c m) = some "not created" ∧
    opTrace w (OpCall.pub c m) = [] ∧
    opError w (OpCall.get k vIn) = none ∧
    opTrace w (OpCall.get k vIn) = [] ∧
    (RedisGet w k vIn false).1 = vIn := by
  match hg : w.gObj with
  | none =>
      simp [opError, opTrace, RedisSet, RedisDelete, RedisPublish, RedisGet, hg]
  | some s =>
      have hr : s.m_pRedisObject = none := by
        have := h
        simp [noHandle, hg, Option.isNone_iff_eq_none] at this
        exact this
      simp [opError, opTrace, RedisSet, RedisDelete, RedisPublish, RedisGet, hg, hr]

/-- Witness for C6 (amended), at the initial (never-connected) state. -/
theorem operations_fail_fast_when_disconnected_witness :
    opError initialW (OpCall.set "k" "v" 7) = some "not created" ∧
    opTrace initialW (OpCall.set "k" "v" 7) = [] ∧
    opError initialW (OpCall.del "k") = some "not created" ∧
    opTrace initialW (OpCall.del "k") = [] ∧
    opError initialW (OpCall.pub "c" "m") = some "not created" ∧
    opTrace initialW (OpCall.pub "c" "m") = [] ∧
    opError initialW (OpCall.get "k" "u") = none ∧
    opTrace initialW (OpCall.get "k" "u") = [] ∧
    (RedisGet initialW "k" "u" false).1 = "u" :=
  operations_fail_fast_when_disconnected initialW rfl "k" "v" "c" "m" "u" 7

/-- Deleting a key removes its binding from the transport store. -/
theorem lookup_storeDel (st : List (String × String)) (k : String) :
    (storeDel st k).lookup k = none := by
  induction st with
  | nil => rfl
  | cons p st ih =>
    by_cases h : p.1 = k
    · simpa [storeDel, List.filter_cons, h] using ih
    · have hbeq : (p.1 == k) = false := by
        simpa using h
      have hbeq' : (k == p.1) = false := by
        simp
        exact fun he => h he.symm
      simpa [storeDel, List.filter_cons, hbeq, List.lookup, hbeq'] using ih

/-- C7: with a live handle, `RedisGet` on a key the store does not hold
returns the empty string — the empty `OptionalString`'s `.value()` throws and
the `catch (...)` turns it into `TEXT("")` — and the same holds for a key
just deleted; and `RedisGet` never surfaces an error in any state (it has no
error output at all). -/
theorem redisGet_missing_key_empty (w : RedisW) (s : ObjS) (id : Nat) (Key vIn : String)
    (hg : w.gObj = some s) (hr : s.m_pRedisObject = some id)
    (hk : w.store.lookup Key = none) :
    (RedisGet w Key vIn false).1 = "" ∧
    (RedisGet (RedisDelete w Key none).1 Key vIn false).1 = "" ∧
    (∀ w' k' v', opError w' (OpCall.get k' v') = none) := by
  refine ⟨?_, ?_, fun _ _ _ => rfl⟩
  · simp [RedisGet, hg, hr, hk]
  · simp [RedisDelete, hg, hr, RedisGet, lookup_storeDel]

/-- Witness for C7 on the running state with an empty store. -/
theorem redisGet_missing_key_empty_witness :
    (RedisGet wRunning "k" "u" false).1 = "" ∧
    (RedisGet (RedisDelete wRunning "k" none).1 "k" "u" false).1 = "" ∧
    (∀ w' k' v', opError w' (OpCall.get k' v') = none) :=
  redisGet_missing_key_empty wRunning runningObj 5 "k" "u" rfl rfl rfl

/-- C8: with a live handle, the ttl `RedisSet` hands to the transport's
`set(key, value, milliseconds(t))` is the clamped value: `0` when
`EffectiveTime < 0` (0 meaning "no expiry" by the transport's convention),
and `EffectiveTime` itself otherwise — regardless of whether the transport
call then succeeds or throws. -/
theorem redisSet_clamps_negative_ttl (w : RedisW) (s : ObjS) (id : Nat)
    (Key Value : String) (eff : Int) (opErr : Option String)
    (hg : w.gObj = some s) (hr : s.m_pRedisObject = some id) :
    (eff < 0 → (RedisSet w Key Value eff opErr).2.2.2 = [TEvent.tSet Key Value 0]) ∧
    (0 ≤ eff → (RedisSet w Key Value eff opErr).2.2.2 = [TEvent.tSet Key Value eff]) := by
  constructor
  · intro hneg
    cases opErr <;> simp [RedisSet, hg, hr, hneg]
  · intro hpos
    have : ¬ eff < 0 := by omega
    cases opErr <;> simp [RedisSet, hg, hr, this]

/-- Witness for C8: ttl −5 is clamped to 0; ttl 7 passes through. -/
theorem redisSet_clamps_negative_ttl_witness :
    (RedisSet wRunning "k" "v" (-5) none).2.2.2 = [TEvent.tSet "k" "v" 0] ∧
    (RedisSet wRunning "k" "v" 7 none).2.2.2 = [TEvent.tSet "k" "v" 7] :=
  ⟨(redisSet_clamps_negative_ttl wRunning runningObj 5 "k" "v" (-5) none rfl rfl).1 (by decide),
   (redisSet_clamps_negative_ttl wRunning runningObj 5 "k" "v" 7 none rfl rfl).2 (by decide)⟩

/-- C9 counterexample: the channel list is not treated as a set — the
runnable's constructor stores the duplicated list `["a", "a"]` verbatim
(`TArray::Append`), and one pass of the subscribe loop issues `subscribe("a")`
twice, refuting "each distinct channel is subscribed at most once per loop
iteration". -/
theorem subscribe_duplicates_not_collapsed :
    (mkRunnable ["a", "a"]).m_ArraySubKey = ["a", "a"] ∧
    ¬ ((subscribePhase (fun _ => false) ["a", "a"] 0).2.2.count (WAction.subscribeKey "a") ≤ 1) := by
  decide

/-- C9 (amended): the subscription request is kept as a list, duplicates
preserved: the constructor appends the given channels verbatim, and each loop
iteration (when no subscribe throws) calls `subscribe` exactly once per stored
list element, in order — so a channel listed n times is subscribed n times per
iteration. -/
theorem subscribe_once_per_list_element (keys : List String) (o : Nat) :
    (mkRunnable keys).m_ArraySubKey = keys ∧
    (subscribePhase (fun _ => false) keys o).1 = false ∧
    (subscribePhase (fun _ => false) keys o).2.2 = keys.map WAction.subscribeKey := by
  refine ⟨by simp [mkRunnable], ?_, ?_⟩
  · induction keys generalizing o with
    | nil => rfl
    | cons k ks ih => simp [subscribePhase, ih]
  · induction keys generalizing o with
    | nil => rfl
    | cons k ks ih => simp [subscribePhase, ih]

/-- In any state with the subscribed flag set, `RedisSubscriber` reports
`Failure` (either the `"not created"` guard or the already-subscribed
diagnostic). -/
theorem redisSubscriber_fails_when_subscribed (w : RedisW) (s : ObjS)
    (hg : w.gObj = some s) (hs : s.m_bSubscriber = true) (chans : List String) (cb : Nat) :
    (RedisSubscriber w chans cb).2.1 = EBP_Result.Failure := by
  cases hr : s.m_pRedisObject <;> simp [RedisSubscriber, hg, hr, hs]

/-- C10: once a subscription has started (`m_bSubscriber` set by
`ExecuteSubscriber`), every operation that does not run the `Disconnect`
teardown — including `CDTSubscriberRunnable::Stop`, which only sets the
runnable's stop flag and closes its subscription object — leaves the flag
set, and `RedisSubscriber` still fails afterwards: only the `Disconnect`
sequence (also run by `ClearConnection` and at the start of
`Connect`/`CreateRedis`) returns the object to a state where a new start can
succeed. -/
theorem subscribed_flag_cleared_only_by_disconnect (w : RedisW) (s : ObjS) (op : HostOp)
    (hg : w.gObj = some s) (hs : s.m_bSubscriber = true)
    (hop : invokesDisconnect op = false) :
    (∃ s', (hostStep w op).gObj = some s' ∧ s'.m_bSubscriber = true) ∧
    (∀ chans cb, (RedisSubscriber (hostStep w op) chans cb).2.1 = EBP_Result.Failure) := by
  have hmain : ∃ s', (hostStep w op).gObj = some s' ∧ s'.m_bSubscriber = true := by
    cases op with
    | createRedis c => simp [invokesDisconnect] at hop
    | disconnect cf => simp [invokesDisconnect] at hop
    | clearConnection cf => simp [invokesDisconnect] at hop
    | redisSet k v ttl e =>
        cases hr : s.m_pRedisObject <;> cases e <;>
          exact ⟨s, by simp [hostStep, RedisSet, hg, hr], hs⟩
    | redisGet k vIn e => exact ⟨s, by simp [hostStep, hg], hs⟩
    | redisDelete k e =>
        cases hr : s.m_pRedisObject <;> cases e <;>
          exact ⟨s, by simp [hostStep, RedisDelete, hg, hr], hs⟩
    | redisPublish c m e =>
        cases hr : s.m_pRedisObject <;> cases e <;>
          exact ⟨s, by simp [hostStep, RedisPublish, hg, hr], hs⟩
    | redisSubscriber chans cb =>
        cases hr : s.m_pRedisObject <;>
          exact ⟨s, by simp [hostStep, RedisSubscriber, hg, hr, hs], hs⟩
    | workerStop =>
        exact ⟨{ s with m_pSubscriberRunnable := s.m_pSubscriberRunnable.map RunnableStop },
          by simp [hostStep, hg], hs⟩
  obtain ⟨s', hg', hs'⟩ := hmain
  exact ⟨⟨s', hg', hs'⟩,
    fun chans cb => redisSubscriber_fails_when_subscribed (hostStep w op) s' hg' hs' chans cb⟩

/-- Witness for C10: a standalone worker stop on the running state leaves the
flag set and a new start still failing. -/
theorem subscribed_flag_cleared_only_by_disconnect_witness :
    (∃ s', (hostStep wRunning HostOp.workerStop).gObj = some s' ∧ s'.m_bSubscriber = true) ∧
    (∀ chans cb,
      (RedisSubscriber (hostStep wRunning HostOp.workerStop) chans cb).2.1 = EBP_Result.Failure) :=
  subscribed_flag_cleared_only_by_disconnect wRunning runningObj HostOp.workerStop rfl rfl rfl

/-- C4: the worker's `on_message` handler only forwards `(channel, payload)`
into `CallBackSubscriber`, which appends one task for the game thread and
performs no delegate invocation itself (the `Execute` call sits only inside
the posted lambda); every delegate invocation comes from the game thread
draining its queue, and each one carries the game context — never the
worker's. -/
theorem callback_always_via_game_thread (queue : List GameTask) (ch msg : String)
    (bound : Option Nat) :
    (onMessageHandler queue ch msg).2 = [] ∧
    (onMessageHandler queue ch msg).1 = queue ++ [{ channel := ch, message := msg }] ∧
    (∀ inv, inv ∈ drainGameThread bound queue → inv.ctx = Ctx.game) ∧
    (∀ inv, inv ∈ drainGameThread bound queue → inv.ctx ≠ Ctx.worker) := by
  have hgame : ∀ inv, inv ∈ drainGameThread bound queue → inv.ctx = Ctx.game := by
    intro inv hin
    induction queue with
    | nil => simp [drainGameThread] at hin
    | cons t ts ih =>
      simp only [drainGameThread, List.map_cons, List.flatten_cons, List.mem_append] at hin
      rcases hin with hin | hin
      · cases bound <;> simp [runGameTask] at hin
        · rw [hin]
      · exact ih (by simpa [drainGameThread] using hin)
  refine ⟨rfl, rfl, hgame, fun inv hin => ?_⟩
  rw [hgame inv hin]
  intro hcon
  cases hcon

/-- Witness use of C4 at a concrete queue and invocation. -/
theorem callback_always_via_game_thread_witness :
    (onMessageHandler [] "orders" "hello").2 = [] ∧
    (CbInvocation.mk Ctx.game "orders" "hello").ctx = Ctx.game := by
  constructor
  · exact (callback_always_via_game_thread [] "orders" "hello" (some 1)).1
  · exact (callback_always_via_game_thread [⟨"orders", "hello"⟩] "orders" "hello"
      (some 1)).2.2.1 ⟨Ctx.game, "orders", "hello"⟩ (by decide)

/-- `prefixesOk` splits along an append: the tail is checked starting from
the live set accumulated over the head. -/
theorem prefixesOk_append (a : List TEvent) :
    ∀ (live : List Nat) (b : List TEvent),
      prefixesOk live (a ++ b)
        = (prefixesOk live a && prefixesOk (a.foldl applyEvent live) b) := by
  induction a with
  | nil => intro live b; simp [prefixesOk]
  | cons e a ih =>
    intro live b
    simp [prefixesOk, ih, Bool.and_assoc]

/-- One `Connect` call: every intermediate point of its transport trace has
at most one live handle (starting from the caller's current handle set), the
trace's net effect matches the resulting handle field, and all teardown
events precede the `newRedis` event. -/
theorem connect_call_ok (s : ObjS) (next : Nat) (H : String) (P : Int) (U Pw : String)
    (D : Int) (cf : Bool) (ce : Option String) :
    prefixesOk (objLive (some s)) (Connect s next H P U Pw D cf ce).2.2.2.2 = true ∧
    ((Connect s next H P U Pw D cf ce).2.2.2.2.foldl applyEvent (objLive (some s)))
      = objLive (some (Connect s next H P U Pw D cf ce).1) ∧
    teardownBeforeNew (Connect s next H P U Pw D cf ce).2.2.2.2 = true := by
  obtain ⟨r, b, t, rn, cbk⟩ := s
  cases r <;> cases t <;> cases rn <;> cases cf <;> cases ce <;>
    simp [Connect, Disconnect, DeleteRedis, NewRedis, objLive, prefixesOk, applyEvent,
      teardownBeforeNew, List.filter]

/-- One `CreateRedis` call: same guarantees as `connect_call_ok`, lifted to
the process state (creating the singleton first when absent). -/
theorem createRedis_ok (w : RedisW) (c : ConnCall) :
    prefixesOk (objLive w.gObj) (CreateRedis w c).2.2.2 = true ∧
    ((CreateRedis w c).2.2.2.foldl applyEvent (objLive w.gObj))
      = objLive (CreateRedis w c).1.gObj ∧
    teardownBeforeNew (CreateRedis w c).2.2.2 = true := by
  cases hg : w.gObj with
  | none =>
      have h := connect_call_ok NewObjectRedis w.nextId c.Host c.Port c.User c.Password
        c.DBIndex c.closeFails c.connectErr
      simpa [CreateRedis, hg, objLive, NewObjectRedis] using h
  | some s =>
      have h := connect_call_ok s w.nextId c.Host c.Port c.User c.Password
        c.DBIndex c.closeFails c.connectErr
      simpa [CreateRedis, hg, objLive] using h

/-- Sequence version: over any list of `CreateRedis` calls, the cumulative
live-handle check holds at every event, the net effect tracks the handle
field, and every call tears down before establishing. -/
theorem runCreates_ok (calls : List ConnCall) :
    ∀ w : RedisW,
      prefixesOk (objLive w.gObj) ((runCreates w calls).2.flatten) = true ∧
      (((runCreates w calls).2.flatten).foldl applyEvent (objLive w.gObj))
        = objLive ((runCreates w calls).1.gObj) ∧
      ((runCreates w calls).2.all teardownBeforeNew) = true := by
  induction calls with
  | nil => intro w; simp [runCreates, prefixesOk]
  | cons c cs ih =>
    intro w
    have hc := createRedis_ok w c
    have hrest := ih (CreateRedis w c).1
    refine ⟨?_, ?_, ?_⟩
    · simp only [runCreates, List.flatten_cons, prefixesOk_append, List.foldl_append]
      rw [hc.1, hc.2.1, hrest.1]
      rfl
    · simp only [runCreates, List.flatten_cons, List.foldl_append]
      rw [hc.2.1, hrest.2.1]
    · simp only [runCreates, List.all_cons]
      rw [hc.2.2, hrest.2.2]
      rfl

/-- C5: starting from the never-connected initial state, for every sequence
of `CreateRedis` calls at most one connection handle is live at every point
of the cumulative transport trace, and within each call all teardown events
(worker kill, handle release — the `Disconnect()` that `Connect` runs first)
precede the establishment of the new handle. -/
theorem connect_sequences_at_most_one_handle (calls : List ConnCall) :
    prefixesOk [] ((runCreates initialW calls).2.flatten) = true ∧
    ((runCreates initialW calls).2.all teardownBeforeNew) = true := by
  have h := runCreates_ok calls initialW
  exact ⟨h.1, h.2.2⟩

/-- `Run`'s outer loop either runs out of model fuel or exits at a poll where
the stop flag read true; it never ends in `threw`. -/
theorem outerLoop_res (stop exn : Nat → Bool) (keys : List String) :
    ∀ fuel p o, (outerLoop stop exn keys fuel p o).1 = RunRes.fuelOut ∨
      ∃ q, (outerLoop stop exn keys fuel p o).1 = RunRes.exited q ∧ stop q = true := by
  intro fuel
  induction fuel with
  | zero => intro p o; left; rfl
  | succ fuel ih =>
    intro p o
    by_cases h1 : stop p
    · right; exact ⟨p, by simp [outerLoop, h1], h1⟩
    · by_cases h2 : exn o
      · have := ih (p + 1) (o + 1)
        simpa [outerLoop, h1, h2] using this
      · rcases hsub : subscribePhase exn keys (o + 1) with ⟨thr, o1, tra⟩
        cases thr with
        | true =>
          have := ih (p + 1) o1
          simpa [outerLoop, h1, h2, hsub] using this
        | false =>
          rcases hcl : consumeLoop stop exn fuel (p + 1) o1 with _ | ⟨th, p', o', tr2⟩
          · left; simp [outerLoop, h1, h2, hsub, hcl]
          · cases th with
            | true =>
              have := ih p' o'
              simpa [outerLoop, h1, h2, hsub, hcl] using this
            | false =>
              have := ih p' o'
              simpa [outerLoop, h1, h2, hsub, hcl] using this

/-- Every action the subscribe loop emits is a `subscribeKey`. -/
theorem subscribePhase_actions (exn : Nat → Bool) :
    ∀ (keys : List String) (o : Nat) (a : WAction),
      a ∈ (subscribePhase exn keys o).2.2 → ∃ k, a = WAction.subscribeKey k := by
  intro keys
  induction keys with
  | nil => intro o a ha; simp [subscribePhase] at ha
  | cons k ks ih =>
    intro o a ha
    by_cases h : exn o
    · simp [subscribePhase, h] at ha
    · simp only [subscribePhase, h, Bool.false_eq_true, if_false] at ha
      rcases List.mem_cons.mp ha with h1 | h1
      · exact ⟨k, h1⟩
      · exact ih (o + 1) a h1

/-- Every action the inner consume loop emits is a `consumeMsg`. -/
theorem consumeLoop_actions (stop exn : Nat → Bool) :
    ∀ (fuel p o : Nat) (r : Bool × Nat × Nat × List WAction),
      consumeLoop stop exn fuel p o = some r → ∀ a ∈ r.2.2.2, a = WAction.consumeMsg := by
  intro fuel
  induction fuel with
  | zero => intro p o r h; simp [consumeLoop] at h
  | succ fuel ih =>
    intro p o r h
    simp only [consumeLoop] at h
    by_cases h1 : stop p
    · rw [if_pos h1] at h
      have := Option.some.inj h
      subst this
      intro a ha
      simp at ha
    · rw [if_neg h1] at h
      by_cases h2 : exn o
      · rw [if_pos h2] at h
        have := Option.some.inj h
        subst this
        intro a ha
        simp at ha
      · rw [if_neg h2] at h
        rcases hcl : consumeLoop stop exn fuel (p + 1) (o + 1) with _ | ⟨th, p', o', tr⟩
        · rw [hcl] at h; simp at h
        · rw [hcl] at h
          have := Option.some.inj h
          subst this
          intro a ha
          rcases List.mem_cons.mp ha with h3 | h3
          · exact h3
          · exact ih (p + 1) (o + 1) (th, p', o', tr) hcl a h3

/-- `retryR` holds vacuously from any non-`caught` action. -/
theorem retryR_of_ne (a b : WAction) (h : a ≠ WAction.caught) : retryR a b :=
  fun hc => absurd hc h

/-- Shapes a worker trace may start with: empty, a `caught` from a throwing
iteration, or the `openSub` of a fresh attempt. -/
def headOkW (l : List WAction) : Prop :=
  l = [] ∨ l.head? = some WAction.caught ∨ l.head? = some WAction.openSub

/-- Appending a caught-free segment in front preserves the retry chain. -/
theorem chain'_append_no_caught (l1 l2 : List WAction)
    (h1 : ∀ a ∈ l1, a ≠ WAction.caught) (h2 : List.Chain' retryR l2) :
    List.Chain' retryR (l1 ++ l2) := by
  induction l1 with
  | nil => simpa using h2
  | cons a l1 ih =>
    rw [List.cons_append]
    refine List.chain'_cons'.mpr ⟨?_, ih (fun x hx => h1 x (List.mem_cons_of_mem a hx))⟩
    intro b _
    exact retryR_of_ne a b (h1 a (List.mem_cons_self a l1))

/-- A caught-free segment, then the catch handler, then a well-headed
continuation, form a retry chain. -/
theorem chain'_append_caught (l1 l2 : List WAction)
    (h1 : ∀ a ∈ l1, a ≠ WAction.caught) (h2 : List.Chain' retryR l2)
    (h3 : headOkW l2) :
    List.Chain' retryR (l1 ++ WAction.caught :: l2) := by
  have hc : List.Chain' retryR (WAction.caught :: l2) := by
    refine List.chain'_cons'.mpr ⟨?_, h2⟩
    intro b hb
    intro _
    rcases h3 with h3 | h3 | h3
    · subst h3; simp at hb
    · rw [h3] at hb
      simp only [Option.mem_def, Option.some.injEq] at hb
      right; exact hb.symm
    · rw [h3] at hb
      simp only [Option.mem_def, Option.some.injEq] at hb
      left; exact hb.symm
  exact chain'_append_no_caught l1 (WAction.caught :: l2) h1 hc

/-- The worker trace always begins empty, with `caught`, or with `openSub`. -/
theorem outerLoop_head (stop exn : Nat → Bool) (keys : List String) (fuel p o : Nat) :
    headOkW (outerLoop stop exn keys fuel p o).2 := by
  cases fuel with
  | zero => left; rfl
  | succ fuel =>
    by_cases h1 : stop p
    · left; simp [outerLoop, h1]
    · by_cases h2 : exn o
      · right; left; simp [outerLoop, h1, h2]
      · rcases hsub : subscribePhase exn keys (o + 1) with ⟨thr, o1, tra⟩
        cases thr with
        | true => right; right; simp [outerLoop, h1, h2, hsub]
        | false =>
          rcases hcl : consumeLoop stop exn fuel (p + 1) o1 with _ | ⟨th, p', o', tr2⟩
          · right; right; simp [outerLoop, h1, h2, hsub, hcl]
          · cases th with
            | true => right; right; simp [outerLoop, h1, h2, hsub, hcl]
            | false => right; right; simp [outerLoop, h1, h2, hsub, hcl]

/-- The whole worker trace is a retry chain: a `caught` is immediately
followed (if at all) by the next iteration's `openSub` or `caught`. -/
theorem outerLoop_chain (stop exn : Nat → Bool) (keys : List String) :
    ∀ fuel p o, List.Chain' retryR (outerLoop stop exn keys fuel p o).2 := by
  intro fuel
  induction fuel with
  | zero => intro p o; exact List.chain'_nil
  | succ fuel ih =>
    intro p o
    by_cases h1 : stop p
    · rw [show (outerLoop stop exn keys (fuel + 1) p o).2 = [] by simp [outerLoop, h1]]
      exact List.chain'_nil
    · by_cases h2 : exn o
      · have h := chain'_append_caught [] (outerLoop stop exn keys fuel (p + 1) (o + 1)).2
          (by intro a ha; simp at ha) (ih (p + 1) (o + 1))
          (outerLoop_head stop exn keys fuel (p + 1) (o + 1))
        rw [show (outerLoop stop exn keys (fuel + 1) p o).2
            = WAction.caught :: (outerLoop stop exn keys fuel (p + 1) (o + 1)).2 by
          simp [outerLoop, h1, h2]]
        simpa using h
      · rcases hsub : subscribePhase exn keys (o + 1) with ⟨thr, o1, tra⟩
        have htra : ∀ a ∈ tra, ∃ k, a = WAction.subscribeKey k := by
          intro a ha
          have := subscribePhase_actions exn keys (o + 1) a
          rw [hsub] at this
          exact this ha
        have htran : ∀ a ∈ tra, a ≠ WAction.caught := by
          intro a ha hcon
          obtain ⟨k, hk⟩ := htra a ha
          rw [hcon] at hk
          cases hk
        cases thr with
        | true =>
          have hne : ∀ a ∈ WAction.openSub :: tra, a ≠ WAction.caught := by
            intro a ha
            rcases List.mem_cons.mp ha with h3 | h3
            · subst h3; intro hcon; cases hcon
            · exact htran a h3
          have h := chain'_append_caught (WAction.openSub :: tra)
            (outerLoop stop exn keys fuel (p + 1) o1).2 hne (ih (p + 1) o1)
            (outerLoop_head stop exn keys fuel (p + 1) o1)
          rw [show (outerLoop stop exn keys (fuel + 1) p o).2
              = (WAction.openSub :: tra ++ [WAction.caught])
                  ++ (outerLoop stop exn keys fuel (p + 1) o1).2 by
            simp [outerLoop, h1, h2, hsub]]
          simpa [List.append_assoc] using h
        | false =>
          rcases hcl : consumeLoop stop exn fuel (p + 1) o1 with _ | ⟨th, p', o', tr2⟩
          · have hne : ∀ a ∈ WAction.openSub :: (tra ++ [WAction.setSub]), a ≠ WAction.caught := by
              intro a ha
              rcases List.mem_cons.mp ha with h3 | h3
              · subst h3; intro hcon; cases hcon
              · rcases List.mem_append.mp h3 with h4 | h4
                · exact htran a h4
                · simp only [List.mem_singleton] at h4
                  subst h4; intro hcon; cases hcon
            have h := chain'_append_no_caught (WAction.openSub :: (tra ++ [WAction.setSub])) []
              hne List.chain'_nil
            rw [show (outerLoop stop exn keys (fuel + 1) p o).2
                = WAction.openSub :: tra ++ [WAction.setSub] by
              simp [outerLoop, h1, h2, hsub, hcl]]
            simpa using h
          · have htr2 : ∀ a ∈ tr2, a ≠ WAction.caught := by
              intro a ha hcon
              have := consumeLoop_actions stop exn fuel (p + 1) o1 (th, p', o', tr2) hcl a ha
              rw [hcon] at this
              cases this
            have hne : ∀ a ∈ WAction.openSub :: (tra ++ [WAction.setSub] ++ tr2),
                a ≠ WAction.caught := by
              intro a ha
              rcases List.mem_cons.mp ha with h3 | h3
              · subst h3; intro hcon; cases hcon
              · rcases List.mem_append.mp h3 with h4 | h4
                · rcases List.mem_append.mp h4 with h5 | h5
                  · exact htran a h5
                  · simp only [List.mem_singleton] at h5
                    subst h5; intro hcon; cases hcon
                · exact htr2 a h4
            cases th with
            | true =>
              have h := chain'_append_caught (WAction.openSub :: (tra ++ [WAction.setSub] ++ tr2))
                (outerLoop stop exn keys fuel p' o').2 hne (ih p' o')
                (outerLoop_head stop exn keys fuel p' o')
              rw [show (outerLoop stop exn keys (fuel + 1) p o).2
                  = (WAction.openSub :: tra ++ [WAction.setSub] ++ tr2 ++ [WAction.caught])
                      ++ (outerLoop stop exn keys fuel p' o').2 by
                simp [outerLoop, h1, h2, hsub, hcl]]
              simpa [List.append_assoc] using h
            | false =>
              have h := chain'_append_no_caught (WAction.openSub :: (tra ++ [WAction.setSub] ++ tr2))
                (outerLoop stop exn keys fuel p' o').2 hne (ih p' o')
              rw [show (outerLoop stop exn keys (fuel + 1) p o).2
                  = (WAction.openSub :: tra ++ [WAction.setSub] ++ tr2)
                      ++ (outerLoop stop exn keys fuel p' o').2 by
                simp [outerLoop, h1, h2, hsub, hcl]]
              simpa [List.append_assoc] using h

/-- After a segment ending with the catch handler, the subscription pointer
is null, whatever it was before. -/
theorem subPtrAfter_append_caught :
    ∀ (l : List WAction) (b : Bool), subPtrAfter b (l ++ [WAction.caught]) = false := by
  intro l
  induction l with
  | nil => intro b; rfl
  | cons a l ih => intro b; cases a <;> simp [subPtrAfter, ih]

/-- Under a permanent transport outage (every call throws) and no stop
request, the loop retries forever: all fuel is consumed, each iteration being
exactly one caught exception — no backoff action, no cap. -/
theorem outerLoop_retry_forever (keys : List String) :
    ∀ (fuel p o : Nat),
      outerLoop (fun _ => false) (fun _ => true) keys fuel p o
        = (RunRes.fuelOut, List.replicate fuel WAction.caught) := by
  intro fuel
  induction fuel with
  | zero => intro p o; rfl
  | succ fuel ih => intro p o; simp [outerLoop, ih, List.replicate_succ]

/-- C3: the worker loop (`CDTSubscriberRunnable::Run`) never lets an
exception escape and never surfaces a failure — its result is only
`exited`/`fuelOut`; it exits only at a poll where the stop flag read true;
after every caught exception the very next action (if any) is the next
iteration's fresh subscribe attempt or another caught exception, with no
backoff action in between; the catch discards the subscription object
(`m_pSubscriber` is null right after every `caught`); and under a permanent
outage with no stop request it retries once per unit of fuel, without cap. -/
theorem run_swallows_and_retries (stop exn : Nat → Bool) (keys : List String)
    (fuel p o : Nat) :
    (outerLoop stop exn keys fuel p o).1 ≠ RunRes.threw ∧
    (∀ q, (outerLoop stop exn keys fuel p o).1 = RunRes.exited q → stop q = true) ∧
    List.Chain' retryR (outerLoop stop exn keys fuel p o).2 ∧
    (∀ pre suf, (outerLoop stop exn keys fuel p o).2 = pre ++ WAction.caught :: suf →
      subPtrAfter false (pre ++ [WAction.caught]) = false) ∧
    (∀ n, outerLoop (fun _ => false) (fun _ => true) keys n 0 0
      = (RunRes.fuelOut, List.replicate n WAction.caught)) := by
  refine ⟨?_, ?_, outerLoop_chain stop exn keys fuel p o,
    fun pre suf _ => subPtrAfter_append_caught pre false,
    fun n => outerLoop_retry_forever keys n 0 0⟩
  · rcases outerLoop_res stop exn keys fuel p o with h | ⟨q, hq, _⟩
    · rw [h]; intro hcon; cases hcon
    · rw [hq]; intro hcon; cases hcon
  · intro q hq
    rcases outerLoop_res stop exn keys fuel p o with h | ⟨q', hq', hs⟩
    · rw [h] at hq; cases hq
    · rw [hq'] at hq
      have : q' = q := by
        cases hq
        rfl
      rw [← this]
      exact hs

/-- Witness for C3: a stop flag already set makes the loop exit at poll 0
(where the flag is true); and with everything throwing, the trace is one
caught per unit of fuel, after which the subscription pointer is null. -/
theorem run_swallows_and_retries_witness :
    (fun _ => true : Nat → Bool) 0 = true ∧
    subPtrAfter false [WAction.caught] = false := by
  constructor
  · exact (run_swallows_and_retries (fun _ => true) (fun _ => false) ["a"] 1 0 0).2.1 0 rfl
  · exact (run_swallows_and_retries (fun _ => false) (fun _ => true) [] 1 0 0).2.2.2.1 [] []
      rfl
